import Mathlib

/-!
# Verification of the d3d12-sandbox-rs renderer core

Shallow embedding of the command-submission/fence engine
(`crates/lighting/src/gfx/d3d12/command.rs` and
`crates/basics/src/d3d12/command_queue.rs`), the descriptor view heap
(`crates/dxr-basics/src/gfx/d3d12/view.rs`) and the BLAS/TLAS
acceleration-structure builder (`crates/dxr-basics/src/gfx/d3d12/raytracing.rs`),
together with proofs of the specification's testable properties.

Modelling conventions:
* `u64` values (fence counters, buffer sizes, GPU virtual addresses) are
  modelled as `Nat`; the only u64 arithmetic in the modelled code is `+= 1`
  on the fence counter and comparisons, and 2^64 increments are unreachable
  in any execution, so wrap-around is not modelled.
* `usize as u32` conversion is modelled as `% 2^32` (64-bit target;
  D3D12 DXR is 64-bit only).
* D3D12 COM objects (allocators, command lists) are modelled by a fresh
  integer id minted from a counter, plus a counter of how many times the
  object was `Reset` (which is the device-visible effect of `Reset()`).
* `Result`/panic (`assert!`, `expect`, `unwrap` on contract violations) is
  modelled with `Option`: `none` is a fatal assertion/contract failure.
-/

namespace D3D12Sandbox

/-- A command allocator COM object: `id` identifies the object (creation
order), `resets` counts how many times `ID3D12CommandAllocator::Reset` was
invoked on it. -/
structure AllocObj where
  id : Nat
  resets : Nat
  deriving DecidableEq, Repr

/-- A graphics command list COM object: `id` identifies the object, `resets`
counts invocations of `ID3D12GraphicsCommandList::Reset`. -/
structure ListObj where
  id : Nat
  resets : Nat
  deriving DecidableEq, Repr

/-- `struct Allocator` (lighting) / `struct CommandAllocator` (basics): a
pooled command allocator tagged with the fence value of the submission that
last used it. -/
structure PooledAllocator where
  allocator : AllocObj
  fence_value : Nat
  deriving DecidableEq, Repr

/-- `struct Context` (lighting) / `struct CommandContext` (basics): an
exclusively owned (command list, allocator) pair checked out for one
recording cycle. -/
structure Context where
  command_list : ListObj
  allocator : AllocObj
  deriving DecidableEq, Repr

/-- `struct Queue` (lighting crate, `command.rs`).  The `VecDeque`s are
lists with the head as the deque front.  The same state type also backs the
model of the basics crate's `CommandQueue`, whose source has no
`allocator_count`/`command_list_count` fields: there the two counters stand
for the device's count of created allocator/list COM objects (the supply of
fresh object identities), which the real device tracks implicitly. -/
structure Queue where
  allocators : List PooledAllocator
  allocator_count : Nat
  command_lists : List ListObj
  command_list_count : Nat
  fence_value : Nat
  deriving DecidableEq, Repr

/-- `Queue::build`: empty pools, fence counter 0 (device-object creation and
naming omitted). -/
def Queue.build : Queue :=
  { allocators := []
    allocator_count := 0
    command_lists := []
    command_list_count := 0
    fence_value := 0 }

/-- `Queue::is_fence_completed`, with the device-reported
`fence.GetCompletedValue()` passed in as `completed`. -/
def Queue.is_fence_completed (completed : Nat) (fence_value : Nat) : Bool :=
  completed ≥ fence_value

/-- `Queue::request_command_ctx` (lighting crate): pop the front pooled
allocator; if its tagged fence has completed, `Reset` it and use it,
otherwise push it back to the front and create a brand-new allocator.
Then pop the front pooled command list (resetting it against the chosen
allocator) or create a brand-new one. -/
def Queue.request_command_ctx (completed : Nat) (q : Queue) : Context × Queue :=
  let popped : Option AllocObj × List PooledAllocator :=
    match q.allocators with
    | [] => (none, [])
    | e :: rest =>
      if Queue.is_fence_completed completed e.fence_value then
        -- `e.allocator.Reset()`
        (some { e.allocator with resets := e.allocator.resets + 1 }, rest)
      else
        (none, e :: rest)   -- self.allocators.push_front(e)
  let allocator_created := popped.1.isNone
  let allocator :=
    match popped.1 with
    | some a => a
    | none => { id := q.allocator_count, resets := 0 }  -- create_allocator
  let allocator_count' :=
    if allocator_created then q.allocator_count + 1 else q.allocator_count
  let pickedList : ListObj × List ListObj × Nat :=
    match q.command_lists with
    | e :: rest =>
      -- `e.Reset(&allocator, None)`
      ({ e with resets := e.resets + 1 }, rest, q.command_list_count)
    | [] =>
      ({ id := q.command_list_count, resets := 0 }, [], q.command_list_count + 1)
  (⟨pickedList.1, allocator⟩,
    { allocators := popped.2
      allocator_count := allocator_count'
      command_lists := pickedList.2.1
      command_list_count := pickedList.2.2
      fence_value := q.fence_value })

/-- `Queue::signal`: advance the monotone fence counter by one, submit a
device-side `Signal`, and return the new value. -/
def Queue.signal (q : Queue) : Nat × Queue :=
  (q.fence_value + 1, { q with fence_value := q.fence_value + 1 })

/-- `Queue::execute_commands`: close and submit the context's command list,
return the list to the list pool immediately (push_back), signal, and pool
the allocator tagged with the signalled fence value (push_back). -/
def Queue.execute_commands (q : Queue) (context : Context) : Nat × Queue :=
  let q1 := { q with command_lists := q.command_lists ++ [context.command_list] }
  let s := q1.signal
  (s.1, { s.2 with allocators := s.2.allocators ++ [⟨context.allocator, s.1⟩] })

/-- `CommandQueue::request_command_ctx` (basics crate, `command_queue.rs`).
Identical pool logic to the lighting crate's `Queue::request_command_ctx`
except that a recycled pooled allocator is handed out *without* calling
`Reset` on it (the basics source has no `e.allocator.Reset()` call). -/
def CommandQueue.request_command_ctx (completed : Nat) (q : Queue) :
    Context × Queue :=
  let popped : Option AllocObj × List PooledAllocator :=
    match q.allocators with
    | [] => (none, [])
    | e :: rest =>
      if Queue.is_fence_completed completed e.fence_value then
        (some e.allocator, rest)          -- no Reset in the basics source
      else
        (none, e :: rest)
  let allocator_created := popped.1.isNone
  let allocator :=
    match popped.1 with
    | some a => a
    | none => { id := q.allocator_count, resets := 0 }
  let allocator_count' :=
    if allocator_created then q.allocator_count + 1 else q.allocator_count
  let pickedList : ListObj × List ListObj × Nat :=
    match q.command_lists with
    | e :: rest =>
      ({ e with resets := e.resets + 1 }, rest, q.command_list_count)
    | [] =>
      ({ id := q.command_list_count, resets := 0 }, [], q.command_list_count + 1)
  (⟨pickedList.1, allocator⟩,
    { allocators := popped.2
      allocator_count := allocator_count'
      command_lists := pickedList.2.1
      command_list_count := pickedList.2.2
      fence_value := q.fence_value })

/-- A fence-advancing call on the queue: `signal()` or
`execute_commands(ctx)`. -/
inductive FenceOp where
  | sig : FenceOp
  | exec : Context → FenceOp
  deriving DecidableEq, Repr

/-- Apply one fence-advancing call, returning the `FenceValue` it returns. -/
def Queue.applyOp (q : Queue) (op : FenceOp) : Nat × Queue :=
  match op with
  | .sig => q.signal
  | .exec ctx => q.execute_commands ctx

/-- Run a sequence of `signal`/`execute_commands` calls, collecting the
returned fence values in order. -/
def Queue.runOps (q : Queue) : List FenceOp → List Nat
  | [] => []
  | op :: ops =>
    let r := q.applyOp op
    r.1 :: r.2.runOps ops

/-- Whether a `request_command_ctx` call on state `q` with device-completed
value `completed` recycles the front pooled allocator (as opposed to
creating a brand-new one). -/
def recyclesAllocator (completed : Nat) (q : Queue) : Bool :=
  match q.allocators with
  | [] => false
  | e :: _ => Queue.is_fence_completed completed e.fence_value

/-! ## System-level model for allocator-reuse safety (C1)

A driver program interacts with the queue through an arbitrary sequence of
`request_command_ctx` (at an arbitrary device-reported completed fence
value), `execute_commands` (on a context it previously checked out and
still holds), and `signal` calls.  `Sys` pairs the queue with the multiset
of checked-out contexts. -/

/-- The queue together with the contexts currently checked out by the
caller (single-threaded recording: contexts are handed back verbatim). -/
structure Sys where
  q : Queue
  outstanding : List Context
  deriving DecidableEq, Repr

/-- One API call by the driver. -/
inductive SysStep : Sys → Sys → Prop where
  | req (s : Sys) (completed : Nat) :
      SysStep s ⟨(Queue.request_command_ctx completed s.q).2,
                 (Queue.request_command_ctx completed s.q).1 :: s.outstanding⟩
  | exec (s : Sys) (ctx : Context) (h : ctx ∈ s.outstanding) :
      SysStep s ⟨(s.q.execute_commands ctx).2, s.outstanding.erase ctx⟩
  | sig (s : Sys) :
      SysStep s ⟨(s.q.signal).2, s.outstanding⟩

/-- States reachable from the freshly built queue by any call sequence. -/
inductive SysReachable : Sys → Prop where
  | init : SysReachable ⟨Queue.build, []⟩
  | step {s s' : Sys} : SysReachable s → SysStep s s' → SysReachable s'

/-- Allocator object ids present in the system: pooled ones first, then
those inside checked-out contexts. -/
def Sys.allocIds (s : Sys) : List Nat :=
  s.q.allocators.map (·.allocator.id) ++ s.outstanding.map (·.allocator.id)

/-- Invariant: every allocator id in the system was minted by the creation
counter (hence is below it), and no id occurs twice (each allocator object
lives in exactly one place: the pool or one checked-out context). -/
def SysInv (s : Sys) : Prop :=
  (∀ i ∈ s.allocIds, i < s.q.allocator_count) ∧ s.allocIds.Nodup

/-! ## Descriptor view heap (`dxr-basics/src/gfx/d3d12/view.rs`)

`DesciptorHeap<const T>` (sic) is a bump allocator over a fixed-capacity
descriptor table.  The CBV/SRV/UAV creation methods return the slot index
as the stable `u32` handle; the heap-start CPU pointer held by the device
is not modelled (the written descriptor lives at
`start + view_size * view_count`, determined by the returned index).
`assert!(view_count < capacity)` failures are `none`. -/

/-- The descriptor-heap state: `view_size`, current `view_count`, fixed
`capacity` (the `ID3D12DescriptorHeap` COM object itself is not modelled). -/
structure DesciptorHeap where
  view_size : Nat
  view_count : Nat
  capacity : Nat
  deriving DecidableEq, Repr

/-- `DesciptorHeap::build`: asserts `capacity > 0`, starts with
`view_count = 0`.  `view_size` is the device-reported handle increment. -/
def DesciptorHeap.build (view_size capacity : Nat) : Option DesciptorHeap :=
  if 0 < capacity then some ⟨view_size, 0, capacity⟩ else none

/-- `create_cbv`: asserts `view_count < capacity`, writes the view at slot
`view_count` and returns that slot as the handle. -/
def DesciptorHeap.create_cbv (h : DesciptorHeap) : Option (Nat × DesciptorHeap) :=
  if h.view_count < h.capacity then
    some (h.view_count, { h with view_count := h.view_count + 1 })
  else none

/-- `create_srv`: identical allocation logic to `create_cbv`. -/
def DesciptorHeap.create_srv (h : DesciptorHeap) : Option (Nat × DesciptorHeap) :=
  if h.view_count < h.capacity then
    some (h.view_count, { h with view_count := h.view_count + 1 })
  else none

/-- `create_uav`: identical allocation logic to `create_cbv`. -/
def DesciptorHeap.create_uav (h : DesciptorHeap) : Option (Nat × DesciptorHeap) :=
  if h.view_count < h.capacity then
    some (h.view_count, { h with view_count := h.view_count + 1 })
  else none

/-- Which of the three CBV_SRV_UAV-heap allocation calls is made. -/
inductive ViewKind where
  | cbv | srv | uav
  deriving DecidableEq, Repr

def createView (k : ViewKind) (h : DesciptorHeap) : Option (Nat × DesciptorHeap) :=
  match k with
  | .cbv => h.create_cbv
  | .srv => h.create_srv
  | .uav => h.create_uav

/-- Run a sequence of allocation calls, collecting the returned handles. -/
def allocViews : List ViewKind → DesciptorHeap → Option (List Nat × DesciptorHeap)
  | [], h => some ([], h)
  | k :: ks, h => do
    let r ← createView k h
    let rs ← allocViews ks r.2
    pure (r.1 :: rs.1, rs.2)

/-! ## Raytracing acceleration structures
(`dxr-basics/src/gfx/d3d12/raytracing.rs`, with the math helper from
`dxr-basics/src/gfx/math.rs`)

Matrix entries are modelled polymorphically (the source's `f32` entries are
only ever copied, never computed with, in the modelled functions), with `Int`
entries when a concrete identity matrix is needed.  A `glam::Mat4` is its
column-major entry table: `m c r` is the entry at column `c`, row `r`. -/

/-- `Mat4::transpose`. -/
def mat4_transpose {α : Type} (m : Nat → Nat → α) : Nat → Nat → α :=
  fun c r => m r c

/-- `Mat4::to_cols_array`: the 16 entries column-major
(index `4*c + r` holds column `c`, row `r`). -/
def mat4_to_cols_array {α : Type} (m : Nat → Nat → α) : List α :=
  (List.range 16).map (fun k => m (k / 4) (k % 4))

/-- `math::mat4_to_row_marjor_float3x4` (sic): transpose, take the
column-major array, keep the first 12 entries. -/
def mat4_to_row_marjor_float3x4 {α : Type} (m : Nat → Nat → α) : List α :=
  (mat4_to_cols_array (mat4_transpose m)).take 12

/-- `Mat4::IDENTITY` (as the target of `Affine3A::IDENTITY.into()`). -/
def mat4_identity : Nat → Nat → Int :=
  fun c r => if c = r then 1 else 0

/-- D3D12_RAYTRACING_ACCELERATION_STRUCTURE_BUILD_FLAG_ALLOW_UPDATE. -/
def BUILD_FLAG_ALLOW_UPDATE : Nat := 0x1

/-- D3D12_RAYTRACING_ACCELERATION_STRUCTURE_BUILD_FLAG_PERFORM_UPDATE. -/
def BUILD_FLAG_PERFORM_UPDATE : Nat := 0x20

/-- D3D12_RESOURCE_FLAG_NONE. -/
def RESOURCE_FLAG_NONE : Nat := 0

/-- D3D12_RESOURCE_FLAG_ALLOW_UNORDERED_ACCESS. -/
def RESOURCE_FLAG_ALLOW_UNORDERED_ACCESS : Nat := 0x4

/-- D3D12_RESOURCE_FLAG_RAYTRACING_ACCELERATION_STRUCTURE. -/
def RESOURCE_FLAG_RAYTRACING_ACCELERATION_STRUCTURE : Nat := 0x100

/-- `size_of::<D3D12_RAYTRACING_INSTANCE_DESC>()` in bytes. -/
def INSTANCE_DESC_SIZE : Nat := 64

/-- A committed GPU buffer: `width` is the creation size
(`GetDesc().Width`), `addr` its `GetGPUVirtualAddress()`. -/
structure Buffer where
  width : Nat
  addr : Nat
  deriving DecidableEq, Repr

inductive HeapType where
  | default | upload
  deriving DecidableEq, Repr

/-- Device-side calls made by the modelled code (creation log). -/
inductive DevCall where
  | createBuffer (heap : HeapType) (flags : Nat) (size : Nat) (addr : Nat)
  | createSrv (location : Nat) (handle : Nat)
  deriving DecidableEq, Repr

/-- `D3D12_RAYTRACING_GEOMETRY_DESC` (triangles): the fields `add_mesh`
fills from the mesh (formats omitted; they are copied opaquely). -/
structure GeometryDesc where
  transform3x4 : Nat
  indexCount : Nat
  vertexCount : Nat
  indexBuffer : Nat
  vertexBuffer : Nat
  deriving DecidableEq, Repr

inductive ASType where
  | bottomLevel | topLevel
  deriving DecidableEq, Repr

/-- The anonymous union in `D3D12_BUILD_RAYTRACING_ACCELERATION_STRUCTURE_INPUTS`:
`pGeometryDescs` for bottom level, `InstanceDescs` GPU address for top level. -/
inductive InputsData where
  | geometryDescs (gs : List GeometryDesc)
  | instanceDescs (addr : Nat)
  deriving DecidableEq, Repr

/-- `D3D12_BUILD_RAYTRACING_ACCELERATION_STRUCTURE_INPUTS`
(`DescsLayout` is always `D3D12_ELEMENTS_LAYOUT_ARRAY`, omitted). -/
structure BuildInputs where
  typ : ASType
  flags : Nat
  numDescs : Nat
  data : InputsData
  deriving DecidableEq, Repr

/-- `D3D12_BUILD_RAYTRACING_ACCELERATION_STRUCTURE_DESC`. -/
structure BuildDesc where
  inputs : BuildInputs
  dest : Nat
  scratch : Nat
  source : Nat
  deriving DecidableEq, Repr

/-- The subset of the dxr-basics `Device` the builder uses: a fresh-address
supply for committed buffers, the CBV/SRV/UAV view heap, the device's
`GetRaytracingAccelerationStructurePrebuildInfo` answer
(`inputs ↦ (ScratchDataSizeInBytes, ResultDataMaxSizeInBytes)`), and a log
of creation calls.  Distinct live buffers have distinct GPU addresses, so
fresh addresses come from a monotone counter. -/
structure Device where
  nextAddr : Nat
  view_heap : DesciptorHeap
  prebuildInfo : BuildInputs → Nat × Nat
  log : List DevCall

/-- `resource::create_buffer` (creation failure is a device-level error
outside the modelled logic; heap properties/initial state are determined by
the arguments recorded in the log). -/
def Device.create_buffer (d : Device) (size : Nat) (heap : HeapType)
    (flags : Nat) : Buffer × Device :=
  (⟨size, d.nextAddr⟩,
   { d with
      nextAddr := d.nextAddr + 1
      log := d.log ++ [.createBuffer heap flags size d.nextAddr] })

/-- `Device::create_srv`: allocate a slot from the CBV/SRV/UAV view heap
(asserted capacity) and record the descriptor write. -/
def Device.create_srv (d : Device) (location : Nat) : Option (Nat × Device) :=
  match d.view_heap.create_srv with
  | none => none
  | some hv =>
    some (hv.1, { d with
      view_heap := hv.2
      log := d.log ++ [.createSrv location hv.1] })

/-- `enum BuildMode`. -/
inductive BuildMode where
  | FullBuild | Update
  deriving DecidableEq, Repr

/-- `struct Blas` (`id` is `BlasId.v : usize`). -/
structure Blas where
  id : Nat
  buffer : Option Buffer
  scratch_buffer : Option Buffer
  build_flags : Nat
  geometries : List GeometryDesc
  deriving DecidableEq, Repr

/-- `Blas::inputs`: for `Update` mode, assert the allow-update build flag
and or-in the perform-update flag. -/
def Blas.inputs (b : Blas) (mode : BuildMode) : Option BuildInputs := do
  let flags ←
    if mode = BuildMode.Update then
      if b.build_flags &&& BUILD_FLAG_ALLOW_UPDATE = 0 then
        none   -- assert_ne! failure
      else
        some (b.build_flags ||| BUILD_FLAG_PERFORM_UPDATE)
    else
      some b.build_flags
  some { typ := ASType.bottomLevel
         flags := flags
         numDescs := b.geometries.length
         data := InputsData.geometryDescs b.geometries }

/-- `Blas::build`: full build into the result buffer, no source
(`SourceAccelerationStructureData: 0`).  The returned descriptor is what
`BuildRaytracingAccelerationStructure` records into the command list. -/
def Blas.build (b : Blas) : Option BuildDesc := do
  let dst ← b.buffer              -- expect("allocate_buffers … first")
  let scratch_buffer ← b.scratch_buffer
  let i ← b.inputs BuildMode.FullBuild
  some { inputs := i, dest := dst.addr, scratch := scratch_buffer.addr,
         source := 0 }

/-- `Blas::update`: incremental refit reading the prior result buffer as
source and writing it in place. -/
def Blas.update (b : Blas) : Option BuildDesc := do
  let dst ← b.buffer              -- expect("allocate_buffers … first")
  let scratch_buffer ← b.scratch_buffer
  let i ← b.inputs BuildMode.Update
  some { inputs := i, dest := dst.addr, scratch := scratch_buffer.addr,
         source := dst.addr }

/-- One D3D12_RAYTRACING_INSTANCE_DESC as built by `Tlas::add_instance`
(the two packed 32-bit bitfields kept as written). -/
structure TlasInstance where
  transform : List Int
  accelerationStructure : Nat
  bitfield1 : Nat
  bitfield2 : Nat
  deriving DecidableEq, Repr

/-- `struct Tlas`. -/
structure Tlas where
  id : Nat
  buffer : Option Buffer
  scratch_buffer : Option Buffer
  build_flags : Nat
  instances : List TlasInstance
  instance_buffer : Option Buffer
  deriving DecidableEq, Repr

def U24_MAX : Nat := 0xFFFFFF

/-- `Tlas::add_instance`: encode the (identity-defaulted) transform as a
row-major 3x4, pack `(instance_mask << 24) | instance_id` and
`(instance_flags << 24) | contribution_to_hit_group_index` with asserted
24-bit bounds, read the Blas result buffer's GPU address, and append the
instance record.  `blas.id.v as u32` truncates to 32 bits. -/
def Tlas.add_instance (t : Tlas) (blas : Blas)
    (transform : Option (Nat → Nat → Int)) : Option Tlas :=
  let transform12 := mat4_to_row_marjor_float3x4 (transform.getD mat4_identity)
  let instance_mask : Nat := 0xFF
  if instance_mask ≤ 0xFF then                    -- assert!(… <= u8::MAX)
    let instance_id : Nat := blas.id % 2 ^ 32     -- blas.id.v as u32
    if instance_id ≤ U24_MAX then                 -- assert!
      let instance_flags : Nat := 0               -- …_INSTANCE_FLAG_NONE
      let contribution_to_hit_group_index : Nat := 0
      if contribution_to_hit_group_index ≤ U24_MAX then   -- assert!
        match blas.buffer with                    -- unwrap()
        | none => none
        | some b =>
          some { t with instances := t.instances ++
            [{ transform := transform12
               accelerationStructure := b.addr
               bitfield1 := (instance_mask <<< 24) ||| instance_id
               bitfield2 := (instance_flags <<< 24)
                 ||| contribution_to_hit_group_index }] }
      else none
    else none
  else none

/-- `Tlas::init_instance_buffer`: upload-heap buffer holding the instance
array (`create_buffer_with_data`; the copied bytes are the `instances`
themselves, represented by the buffer's size). -/
def Tlas.init_instance_buffer (t : Tlas) (d : Device) : Tlas × Device :=
  let r := d.create_buffer (INSTANCE_DESC_SIZE * t.instances.length)
    HeapType.upload RESOURCE_FLAG_NONE
  ({ t with instance_buffer := some r.1 }, r.2)

/-- `Tlas::inputs`: top-level inputs referencing the instance buffer's GPU
address (0 if absent). -/
def Tlas.inputs (t : Tlas) : BuildInputs :=
  { typ := ASType.topLevel
    flags := t.build_flags
    numDescs := t.instances.length
    data := InputsData.instanceDescs ((t.instance_buffer.map (·.addr)).getD 0) }

/-- The scratch phase of `Tlas::allocate_buffers`: the
`scratch_buffer.take_if(width ≥ required).unwrap_or_else(create_buffer …)`
expression — keep the old buffer iff its width covers
`info.ScratchDataSizeInBytes`, else create a fresh one of exactly that
size. -/
def Tlas.alloc_scratch (t : Tlas) (d : Device) (required : Nat) : Buffer × Device :=
  match t.scratch_buffer with
  | some buf =>
    if required ≤ buf.width then (buf, d)
    else d.create_buffer required HeapType.default
      RESOURCE_FLAG_ALLOW_UNORDERED_ACCESS
  | none => d.create_buffer required HeapType.default
      RESOURCE_FLAG_ALLOW_UNORDERED_ACCESS

/-- The result phase of `Tlas::allocate_buffers`: the
`buffer.take_if(width ≥ required).unwrap_or_else(create_buffer …)`
expression, against `info.ResultDataMaxSizeInBytes`. -/
def Tlas.alloc_result (t : Tlas) (d : Device) (required : Nat) : Buffer × Device :=
  match t.buffer with
  | some buf =>
    if required ≤ buf.width then (buf, d)
    else d.create_buffer required HeapType.default
      (RESOURCE_FLAG_RAYTRACING_ACCELERATION_STRUCTURE
        ||| RESOURCE_FLAG_ALLOW_UNORDERED_ACCESS)
  | none => d.create_buffer required HeapType.default
      (RESOURCE_FLAG_RAYTRACING_ACCELERATION_STRUCTURE
        ||| RESOURCE_FLAG_ALLOW_UNORDERED_ACCESS)

/-- `Tlas::allocate_buffers`: query prebuild sizes; keep the scratch buffer
iff its width covers the scratch requirement, else create a new one; same
for the result buffer; return whether the result buffer's GPU address
changed. -/
def Tlas.allocate_buffers (t : Tlas) (d : Device) : Bool × Tlas × Device :=
  let info := d.prebuildInfo t.inputs
  let sr := t.alloc_scratch d info.1
  let prev_address := (t.buffer.map (·.addr)).getD 0
  let br := t.alloc_result sr.2 info.2
  (prev_address != br.1.addr,
   { t with scratch_buffer := some sr.1, buffer := some br.1 },
   br.2)

/-- `Tlas::build`: assert the instance buffer exists, full build
(`SourceAccelerationStructureData: 0`) into the result buffer. -/
def Tlas.build (t : Tlas) : Option BuildDesc :=
  if t.instance_buffer.isSome then   -- assert!(…, "init_instance_buffer …")
    do
      let scratch_buffer ← t.scratch_buffer  -- expect("allocate_buffers …")
      let buffer ← t.buffer                  -- expect("allocate_buffers …")
      some { inputs := t.inputs, dest := buffer.addr,
             scratch := scratch_buffer.addr, source := 0 }
  else none

/-- A GPU command recorded into the command list by the modelled code. -/
inductive Barrier where
  | uav (resource : Nat)
  | transition (resource : Nat) (before after : Nat)
  deriving DecidableEq, Repr

inductive Action where
  | buildAS (desc : BuildDesc)
  | resourceBarrier (bs : List Barrier)
  deriving DecidableEq, Repr

/-- `struct RaytracingScene` (the fixed-size `mesh_data` table and debug
`name` are not touched by the modelled operations and are omitted). -/
structure RaytracingScene where
  blas_list : List Blas
  tlas : Tlas
  srv : Option Nat
  deriving Repr

/-- The `for blas in &mut self.blas_list { blas.update(cmd_list); … }` loop
of `RaytracingScene::update`: collect each Blas's refit build descriptor in
order (a panic in any iteration aborts the whole update). -/
def blasUpdates : List Blas → Option (List BuildDesc)
  | [] => some []
  | b :: l => do
    let dsc ← b.update
    let rest ← blasUpdates l
    some (dsc :: rest)

/-- `RaytracingScene::init_srv`: create the acceleration-structure SRV at
the Tlas result buffer's GPU address. -/
def RaytracingScene.init_srv (s : RaytracingScene) (d : Device) :
    Option (RaytracingScene × Device) := do
  let buf ← s.tlas.buffer           -- unwrap()
  let r ← d.create_srv buf.addr
  some ({ s with srv := some r.1 }, r.2)

/-- `RaytracingScene::update`: refit every Blas (recording one build per
Blas, then one batched UAV barrier on their result buffers), reallocate the
Tlas buffers if required, full-build the Tlas, recreate its SRV iff the
result buffer moved, and record a final UAV barrier on the Tlas result
buffer.  Returns the new scene, the device, and the command-list actions in
recorded order. -/
def RaytracingScene.update (s : RaytracingScene) (d : Device) :
    Option (RaytracingScene × Device × List Action) := do
  let blasDescs ← blasUpdates s.blas_list
  let barriers := blasDescs.map (fun dsc => Barrier.uav dsc.dest)
  let a := s.tlas.allocate_buffers d
  let create_srv := a.1
  let tlasDesc ← a.2.1.build
  let sd ←
    if create_srv then
      RaytracingScene.init_srv { s with tlas := a.2.1 } a.2.2
    else
      some ({ s with tlas := a.2.1 }, a.2.2)
  some (sd.1, sd.2,
    blasDescs.map Action.buildAS
      ++ [Action.resourceBarrier barriers]
      ++ [Action.buildAS tlasDesc]
      ++ [Action.resourceBarrier [Barrier.uav tlasDesc.dest]])

theorem Queue.applyOp_fst (q : Queue) (op : FenceOp) :
    (q.applyOp op).1 = q.fence_value + 1 := by
  cases op <;> rfl

theorem Queue.applyOp_fence (q : Queue) (op : FenceOp) :
    (q.applyOp op).2.fence_value = q.fence_value + 1 := by
  cases op <;> rfl

theorem Queue.runOps_eq (q : Queue) (ops : List FenceOp) :
    q.runOps ops = List.range' (q.fence_value + 1) ops.length := by
  induction ops generalizing q with
  | nil => rfl
  | cons op ops ih =>
    show (q.applyOp op).1 :: (q.applyOp op).2.runOps ops = _
    rw [List.length_cons, List.range'_succ, applyOp_fst, ih, applyOp_fence]

/-- **C2**: starting from the built state (internal counter 0), every
`signal`/`execute_commands` call returns the previous internal counter plus
exactly 1 and advances the counter to that value, so the list of returned
`FenceValue`s for any call sequence is `[1, 2, …, n]`: strictly increasing
by exactly 1 per call, never reused, never decremented. -/
theorem fence_values_strictly_increasing (ops : List FenceOp) :
    Queue.build.runOps ops = List.range' 1 ops.length
      ∧ ∀ (q : Queue) (op : FenceOp),
        (q.applyOp op).1 = q.fence_value + 1
          ∧ (q.applyOp op).2.fence_value = q.fence_value + 1 := by
  refine ⟨Queue.runOps_eq _ ops, fun q op => ⟨Queue.applyOp_fst q op, Queue.applyOp_fence q op⟩⟩

/-- **C8**: `execute_commands` returns the context's command list to the
list pool immediately (appended at the back, leaving every other pool entry
unchanged), appends the context's allocator to the allocator pool tagged
with exactly the returned fence value (= previous counter + 1), and — when
the list pool was empty — the very next `request_command_ctx` hands that
same command list back out (reset) for *any* device-reported completed
fence value. -/
theorem execute_commands_pools (q : Queue) (ctx : Context) :
    let r := q.execute_commands ctx
    r.1 = q.fence_value + 1
      ∧ r.2.command_lists = q.command_lists ++ [ctx.command_list]
      ∧ r.2.allocators = q.allocators ++ [⟨ctx.allocator, r.1⟩]
      ∧ r.2.allocator_count = q.allocator_count
      ∧ r.2.command_list_count = q.command_list_count
      ∧ (q.command_lists = [] → ∀ completed : Nat,
          (Queue.request_command_ctx completed r.2).1.command_list
            = { ctx.command_list with resets := ctx.command_list.resets + 1 }) := by
  refine ⟨rfl, rfl, rfl, rfl, rfl, fun h completed => ?_⟩
  simp only [Queue.execute_commands, Queue.signal, Queue.request_command_ctx, h,
    List.nil_append]

/-- Witness for C8 at a concrete queue state and context. -/
theorem execute_commands_pools_witness :
    let q : Queue :=
      { allocators := [⟨⟨0, 0⟩, 1⟩], allocator_count := 1,
        command_lists := [], command_list_count := 1, fence_value := 1 }
    let ctx : Context := ⟨⟨0, 1⟩, ⟨1, 0⟩⟩
    let r := q.execute_commands ctx
    r.1 = q.fence_value + 1
      ∧ r.2.command_lists = q.command_lists ++ [ctx.command_list]
      ∧ r.2.allocators = q.allocators ++ [⟨ctx.allocator, r.1⟩]
      ∧ r.2.allocator_count = q.allocator_count
      ∧ r.2.command_list_count = q.command_list_count
      ∧ (q.command_lists = [] → ∀ completed : Nat,
          (Queue.request_command_ctx completed r.2).1.command_list
            = { ctx.command_list with resets := ctx.command_list.resets + 1 }) :=
  execute_commands_pools _ _

/-- **C10 (counterexample)**: the two copies of the context-request
operation are *not* observationally equivalent.  On a pool holding one
allocator tagged with fence value 1 when the completed value is 1, the
lighting crate's `Queue::request_command_ctx` resets the recycled allocator
(`e.allocator.Reset()`) before handing it out, while the basics crate's
`CommandQueue::request_command_ctx` hands it out without any reset, so the
returned contexts differ. -/
theorem request_ctx_copies_not_equivalent :
    let q : Queue :=
      { allocators := [⟨⟨0, 0⟩, 1⟩], allocator_count := 1,
        command_lists := [⟨0, 1⟩], command_list_count := 1, fence_value := 1 }
    Queue.request_command_ctx 1 q ≠ CommandQueue.request_command_ctx 1 q
      ∧ (Queue.request_command_ctx 1 q).1.allocator.resets = 1
      ∧ (CommandQueue.request_command_ctx 1 q).1.allocator.resets = 0 := by
  decide

/-- **C10 (amended)**: the two context-request copies are observationally
equivalent *except for the allocator reset*: from the same pool state and
completed-fence value they pick the same pooled-or-fresh allocator and
command list, reset the recycled command list, and leave identical queue
states — but only the lighting copy resets a recycled pooled allocator
before handing it out (the basics copy returns it with its reset count
unchanged). -/
theorem request_ctx_copies_equivalent_up_to_reset (completed : Nat) (q : Queue) :
    let l := Queue.request_command_ctx completed q
    let b := CommandQueue.request_command_ctx completed q
    l.2 = b.2
      ∧ l.1.command_list = b.1.command_list
      ∧ l.1.allocator.id = b.1.allocator.id
      ∧ l.1.allocator.resets
          = b.1.allocator.resets + (if recyclesAllocator completed q then 1 else 0)
      ∧ (recyclesAllocator completed q = false → l.1 = b.1) := by
  cases hq : q.allocators with
  | nil =>
    simp [Queue.request_command_ctx, CommandQueue.request_command_ctx,
      recyclesAllocator, hq]
  | cons e rest =>
    by_cases hf : Queue.is_fence_completed completed e.fence_value = true
    · simp [Queue.request_command_ctx, CommandQueue.request_command_ctx,
        recyclesAllocator, hq, hf]
    · simp only [Bool.not_eq_true] at hf
      simp [Queue.request_command_ctx, CommandQueue.request_command_ctx,
        recyclesAllocator, hq, hf]

/-- Witness for the amended C10 at a concrete state (non-recycling case:
pool empty). -/
theorem request_ctx_copies_equivalent_up_to_reset_witness :
    let q : Queue :=
      { allocators := [], allocator_count := 2,
        command_lists := [⟨0, 3⟩], command_list_count := 1, fence_value := 4 }
    let l := Queue.request_command_ctx 4 q
    let b := CommandQueue.request_command_ctx 4 q
    l.2 = b.2
      ∧ l.1.command_list = b.1.command_list
      ∧ l.1.allocator.id = b.1.allocator.id
      ∧ l.1.allocator.resets
          = b.1.allocator.resets + (if recyclesAllocator 4 q then 1 else 0)
      ∧ (recyclesAllocator 4 q = false → l.1 = b.1) :=
  request_ctx_copies_equivalent_up_to_reset 4 _

theorem request_alloc_empty {q : Queue} (c : Nat) (h : q.allocators = []) :
    (Queue.request_command_ctx c q).1.allocator = ⟨q.allocator_count, 0⟩
      ∧ (Queue.request_command_ctx c q).2.allocators = []
      ∧ (Queue.request_command_ctx c q).2.allocator_count = q.allocator_count + 1 := by
  simp [Queue.request_command_ctx, h]

theorem request_alloc_recycle {q : Queue} {e : PooledAllocator}
    {rest : List PooledAllocator} (c : Nat) (h : q.allocators = e :: rest)
    (hf : e.fence_value ≤ c) :
    (Queue.request_command_ctx c q).1.allocator
        = ⟨e.allocator.id, e.allocator.resets + 1⟩
      ∧ (Queue.request_command_ctx c q).2.allocators = rest
      ∧ (Queue.request_command_ctx c q).2.allocator_count = q.allocator_count := by
  simp [Queue.request_command_ctx, Queue.is_fence_completed, h, hf]

theorem request_alloc_pending {q : Queue} {e : PooledAllocator}
    {rest : List PooledAllocator} (c : Nat) (h : q.allocators = e :: rest)
    (hf : c < e.fence_value) :
    (Queue.request_command_ctx c q).1.allocator = ⟨q.allocator_count, 0⟩
      ∧ (Queue.request_command_ctx c q).2.allocators = e :: rest
      ∧ (Queue.request_command_ctx c q).2.allocator_count = q.allocator_count + 1 := by
  have hf' : ¬ e.fence_value ≤ c := by omega
  simp [Queue.request_command_ctx, Queue.is_fence_completed, h, hf']

theorem execute_allocators (q : Queue) (ctx : Context) :
    (q.execute_commands ctx).2.allocators
        = q.allocators ++ [⟨ctx.allocator, q.fence_value + 1⟩]
      ∧ (q.execute_commands ctx).2.allocator_count = q.allocator_count := by
  exact ⟨rfl, rfl⟩

theorem sys_allocIds_mk (q : Queue) (out : List Context) :
    Sys.allocIds ⟨q, out⟩
      = q.allocators.map (·.allocator.id) ++ out.map (·.allocator.id) := rfl

theorem sysInv_init : SysInv ⟨Queue.build, []⟩ := by
  constructor <;> simp [Sys.allocIds, Queue.build]

theorem sysInv_step {s s' : Sys} (hinv : SysInv s) (hstep : SysStep s s') :
    SysInv s' := by
  obtain ⟨hbound, hnodup⟩ := hinv
  have hIds : Sys.allocIds s
      = s.q.allocators.map (·.allocator.id)
          ++ s.outstanding.map (·.allocator.id) := rfl
  cases hstep with
  | sig =>
    exact ⟨hbound, hnodup⟩
  | exec ctx hmem =>
    -- the pool gains ctx's allocator at the back; outstanding loses ctx
    have hids' : Sys.allocIds ⟨(s.q.execute_commands ctx).2, s.outstanding.erase ctx⟩
        = s.q.allocators.map (·.allocator.id)
            ++ ctx.allocator.id :: (s.outstanding.erase ctx).map (·.allocator.id) := by
      rw [sys_allocIds_mk, (execute_allocators s.q ctx).1, List.map_append,
        List.append_assoc]
      rfl
    have hpermO : List.Perm (s.outstanding.map (·.allocator.id))
        (ctx.allocator.id :: (s.outstanding.erase ctx).map (·.allocator.id)) :=
      (List.perm_cons_erase hmem).map (·.allocator.id)
    have hcount : (s.q.execute_commands ctx).2.allocator_count
        = s.q.allocator_count := (execute_allocators s.q ctx).2
    constructor
    · intro i hi
      rw [hids'] at hi
      show i < (s.q.execute_commands ctx).2.allocator_count
      rw [hcount]
      simp only [List.mem_append, List.mem_cons] at hi
      rcases hi with hi | rfl | hi
      · exact hbound i (by rw [hIds]; exact List.mem_append_left _ hi)
      · refine hbound _ (by
          rw [hIds]
          exact List.mem_append_right _ (List.mem_map_of_mem (·.allocator.id) hmem))
      · refine hbound i (by
          rw [hIds]
          refine List.mem_append_right _ ?_
          exact List.map_subset _ (fun x hx => List.mem_of_mem_erase hx) hi)
    · show (Sys.allocIds _).Nodup
      rw [hids', List.nodup_middle]
      have h1 : List.Perm (Sys.allocIds s)
          (ctx.allocator.id
            :: (s.q.allocators.map (·.allocator.id)
                ++ (s.outstanding.erase ctx).map (·.allocator.id))) := by
        rw [hIds]
        exact (hpermO.append_left _).trans List.perm_middle
      exact h1.nodup hnodup
  | req completed =>
    cases hpool : s.q.allocators with
    | nil =>
      obtain ⟨ha, hrest, hcount⟩ := request_alloc_empty completed hpool
      have hids' : Sys.allocIds ⟨(Queue.request_command_ctx completed s.q).2,
            (Queue.request_command_ctx completed s.q).1 :: s.outstanding⟩
          = s.q.allocator_count :: s.outstanding.map (·.allocator.id) := by
        rw [sys_allocIds_mk, hrest, List.map_cons, ha]
        rfl
      have hO : (s.outstanding.map (·.allocator.id)).Nodup := by
        rw [hIds, hpool] at hnodup
        simpa using hnodup
      constructor
      · intro i hi
        rw [hids'] at hi
        show i < (Queue.request_command_ctx completed s.q).2.allocator_count
        rw [hcount]
        rcases List.mem_cons.mp hi with rfl | hi
        · omega
        · have := hbound i (by rw [hIds]; exact List.mem_append_right _ hi)
          omega
      · show (Sys.allocIds _).Nodup
        rw [hids', List.nodup_cons]
        refine ⟨fun hmem => ?_, hO⟩
        have := hbound _ (by rw [hIds]; exact List.mem_append_right _ hmem)
        omega
    | cons e rest =>
      by_cases hf : e.fence_value ≤ completed
      · -- recycle: the head allocator moves from the pool to the context
        obtain ⟨ha, hrest, hcount⟩ := request_alloc_recycle completed hpool hf
        have hids' : Sys.allocIds ⟨(Queue.request_command_ctx completed s.q).2,
              (Queue.request_command_ctx completed s.q).1 :: s.outstanding⟩
            = rest.map (·.allocator.id)
                ++ e.allocator.id :: s.outstanding.map (·.allocator.id) := by
          rw [sys_allocIds_mk, hrest, List.map_cons, ha]
        have hsrc : Sys.allocIds s
            = e.allocator.id
                :: (rest.map (·.allocator.id)
                    ++ s.outstanding.map (·.allocator.id)) := by
          rw [hIds, hpool]; rfl
        have hperm : List.Perm
            (Sys.allocIds s)
            (Sys.allocIds ⟨(Queue.request_command_ctx completed s.q).2,
              (Queue.request_command_ctx completed s.q).1 :: s.outstanding⟩) := by
          rw [hids', hsrc]
          exact List.perm_middle.symm
        constructor
        · intro i hi
          show i < (Queue.request_command_ctx completed s.q).2.allocator_count
          rw [hcount]
          exact hbound i (hperm.symm.subset hi)
        · exact hperm.nodup hnodup
      · -- pending: a brand-new allocator is created, the pool is untouched
        have hf' : completed < e.fence_value := by omega
        obtain ⟨ha, hrest, hcount⟩ := request_alloc_pending completed hpool hf'
        have hids' : Sys.allocIds ⟨(Queue.request_command_ctx completed s.q).2,
              (Queue.request_command_ctx completed s.q).1 :: s.outstanding⟩
            = s.q.allocators.map (·.allocator.id)
                ++ s.q.allocator_count :: s.outstanding.map (·.allocator.id) := by
          rw [sys_allocIds_mk, hrest, ← hpool, List.map_cons, ha]
        constructor
        · intro i hi
          rw [hids'] at hi
          show i < (Queue.request_command_ctx completed s.q).2.allocator_count
          rw [hcount]
          simp only [List.mem_append, List.mem_cons] at hi
          rcases hi with hi | rfl | hi
          · have := hbound i (by rw [hIds]; exact List.mem_append_left _ hi)
            omega
          · omega
          · have := hbound i (by rw [hIds]; exact List.mem_append_right _ hi)
            omega
        · show (Sys.allocIds _).Nodup
          rw [hids', List.nodup_middle, List.nodup_cons]
          refine ⟨fun hmem => ?_, by rw [← hIds]; exact hnodup⟩
          rw [← hIds] at hmem
          have := hbound _ hmem
          omega

theorem sysInv_reachable {s : Sys} (h : SysReachable s) : SysInv s := by
  induction h with
  | init => exact sysInv_init
  | step _ hstep ih => exact sysInv_step ih hstep

/-- **C1**: in every reachable system state and for every device-reported
completed fence value, `request_command_ctx` never hands out a pooled
allocator whose tagged fence value exceeds the completed value: every such
pending pooled allocator is left untouched in the pool and differs from the
returned allocator.  It returns the oldest pooled allocator (reset) exactly
when that allocator's tagged fence has completed; otherwise (empty pool, or
oldest still pending) it returns a brand-new allocator minted from the
creation counter and leaves the pool unchanged. -/
theorem request_never_reuses_pending_allocator (s : Sys)
    (hs : SysReachable s) (c : Nat) :
    let r := Queue.request_command_ctx c s.q
    (∀ e ∈ s.q.allocators, c < e.fence_value →
        r.1.allocator ≠ e.allocator ∧ e ∈ r.2.allocators)
      ∧ (∀ e rest, s.q.allocators = e :: rest → e.fence_value ≤ c →
          r.1.allocator = ⟨e.allocator.id, e.allocator.resets + 1⟩
            ∧ r.2.allocators = rest)
      ∧ (∀ e rest, s.q.allocators = e :: rest → c < e.fence_value →
          r.1.allocator = ⟨s.q.allocator_count, 0⟩
            ∧ r.2.allocators = s.q.allocators)
      ∧ (s.q.allocators = [] →
          r.1.allocator = ⟨s.q.allocator_count, 0⟩ ∧ r.2.allocators = []) := by
  obtain ⟨hbound, hnodup⟩ := sysInv_reachable hs
  have hIds : Sys.allocIds s
      = s.q.allocators.map (·.allocator.id)
          ++ s.outstanding.map (·.allocator.id) := rfl
  refine ⟨?_, ?_, ?_, ?_⟩
  · intro e hmem hpend
    cases hpool : s.q.allocators with
    | nil => rw [hpool] at hmem; cases hmem
    | cons e0 rest =>
      rw [hpool] at hmem
      by_cases hf : e0.fence_value ≤ c
      · obtain ⟨ha, hrest, _⟩ := request_alloc_recycle c hpool hf
        have hne : e ≠ e0 := fun h => by rw [h] at hpend; omega
        have hmemRest : e ∈ rest := by
          rcases List.mem_cons.mp hmem with rfl | h
          · exact absurd rfl hne
          · exact h
        refine ⟨?_, by rw [hrest]; exact hmemRest⟩
        -- e0's id occurs nowhere else in the pool, so ids differ
        have hNodupPool : ((e0 :: rest).map (·.allocator.id)).Nodup := by
          rw [hIds, hpool] at hnodup
          exact (List.nodup_append.mp hnodup).1
        have hidne : e.allocator.id ≠ e0.allocator.id := by
          intro hid
          rw [List.map_cons, List.nodup_cons] at hNodupPool
          exact hNodupPool.1
            (hid ▸ List.mem_map_of_mem (·.allocator.id) hmemRest)
        intro heq
        exact hidne (by rw [← heq, ha])
      · have hf' : c < e0.fence_value := by omega
        obtain ⟨ha, hrest, _⟩ := request_alloc_pending c hpool hf'
        refine ⟨?_, by rw [hrest, ← hpool]; exact (hpool ▸ hmem)⟩
        have hlt : e.allocator.id < s.q.allocator_count := by
          refine hbound _ (by
            rw [hIds]
            exact List.mem_append_left _
              (hpool ▸ List.mem_map_of_mem (·.allocator.id) hmem))
        intro heq
        rw [← heq, ha] at hlt
        exact absurd (show s.q.allocator_count < s.q.allocator_count from hlt)
          (by omega)
  · intro e rest hpool hf
    obtain ⟨ha, hrest, _⟩ := request_alloc_recycle c hpool hf
    exact ⟨ha, hrest⟩
  · intro e rest hpool hf
    obtain ⟨ha, hrest, _⟩ := request_alloc_pending c hpool hf
    exact ⟨ha, by rw [hrest, hpool]⟩
  · intro hpool
    obtain ⟨ha, hrest, _⟩ := request_alloc_empty c hpool
    exact ⟨ha, hrest⟩

/-- Witness for C1: the state reached by `request (completed:=0)` then
`execute_commands` on the returned context; its pool holds one allocator
tagged with fence value 1 while the completed value is still 0, and the
theorem's conclusion is discharged there. -/
theorem request_never_reuses_pending_allocator_witness :
    let s : Sys :=
      { q := { allocators := [⟨⟨0, 0⟩, 1⟩], allocator_count := 1,
               command_lists := [⟨0, 0⟩], command_list_count := 1,
               fence_value := 1 }
        outstanding := [] }
    let r := Queue.request_command_ctx 0 s.q
    (∀ e ∈ s.q.allocators, 0 < e.fence_value →
        r.1.allocator ≠ e.allocator ∧ e ∈ r.2.allocators)
      ∧ (∀ e rest, s.q.allocators = e :: rest → e.fence_value ≤ 0 →
          r.1.allocator = { e.allocator with resets := e.allocator.resets + 1 }
            ∧ r.2.allocators = rest)
      ∧ (∀ e rest, s.q.allocators = e :: rest → 0 < e.fence_value →
          r.1.allocator = ⟨s.q.allocator_count, 0⟩
            ∧ r.2.allocators = s.q.allocators)
      ∧ (s.q.allocators = [] →
          r.1.allocator = ⟨s.q.allocator_count, 0⟩ ∧ r.2.allocators = []) :=
  request_never_reuses_pending_allocator _
    (SysReachable.step
      (SysReachable.step SysReachable.init (SysStep.req ⟨Queue.build, []⟩ 0))
      (SysStep.exec _ ⟨⟨0, 0⟩, ⟨0, 0⟩⟩ (by decide)))
    0

theorem createView_eq (k : ViewKind) (h : DesciptorHeap) :
    createView k h =
      if h.view_count < h.capacity then
        some (h.view_count, { h with view_count := h.view_count + 1 })
      else none := by
  cases k <;> rfl

theorem allocViews_ok (ks : List ViewKind) (h : DesciptorHeap)
    (hle : h.view_count + ks.length ≤ h.capacity) :
    allocViews ks h
      = some (List.range' h.view_count ks.length,
          { h with view_count := h.view_count + ks.length }) := by
  induction ks generalizing h with
  | nil => simp [allocViews]
  | cons k ks ih =>
    have hlt : h.view_count < h.capacity := by
      simp only [List.length_cons] at hle; omega
    have step := ih { h with view_count := h.view_count + 1 }
      (by simp only [List.length_cons] at hle; simpa using by omega)
    simp only [allocViews, createView_eq, hlt, if_pos, Option.bind_eq_bind,
      Option.some_bind, step, List.range'_succ, List.length_cons]
    have harith : h.view_count + (ks.length + 1) = h.view_count + 1 + ks.length := by
      omega
    rw [harith]
    rfl

theorem allocViews_overflow (ks : List ViewKind) (h : DesciptorHeap)
    (h1 : h.view_count ≤ h.capacity)
    (h2 : h.capacity < h.view_count + ks.length) :
    allocViews ks h = none := by
  induction ks generalizing h with
  | nil => simp only [List.length_cons, List.length_nil] at h2; omega
  | cons k ks ih =>
    by_cases hlt : h.view_count < h.capacity
    · have step := ih { h with view_count := h.view_count + 1 }
        (by simpa using by omega)
        (by simp only [List.length_cons] at h2; simpa using by omega)
      simp [allocViews, createView_eq, hlt, step]
    · simp [allocViews, createView_eq, hlt]

/-- **C6**: from a freshly built heap of capacity `C`, any sequence of
`K ≤ C` allocation calls (`create_cbv`/`create_srv`/`create_uav`, in any
mix) succeeds and returns exactly the handles `0, 1, …, K-1` in call order
(distinct and monotonically assigned, with no deallocation operation), and
any sequence of `C + 1` calls fails the asserted precondition
`view_count < capacity` (a fatal `none`, not a recoverable error). -/
theorem descriptor_heap_handles (vs C : Nat) (ks : List ViewKind)
    (h0 : DesciptorHeap) (hb : DesciptorHeap.build vs C = some h0) :
    (ks.length ≤ C →
        allocViews ks h0 = some (List.range ks.length, ⟨vs, ks.length, C⟩))
      ∧ (ks.length = C + 1 → allocViews ks h0 = none) := by
  have hC : 0 < C ∧ h0 = ⟨vs, 0, C⟩ := by
    by_cases h : 0 < C
    · refine ⟨h, ?_⟩
      simp [DesciptorHeap.build, h] at hb
      exact hb.symm
    · simp [DesciptorHeap.build, h] at hb
  obtain ⟨hCpos, rfl⟩ := hC
  constructor
  · intro hK
    rw [allocViews_ok ks _ (by simpa using hK)]
    simp [List.range_eq_range']
  · intro hK
    exact allocViews_overflow ks _ (by simp) (by simp [hK])

/-- Witness for C6: a heap of capacity 2, two allocations return handles
`[0, 1]`, three allocations fail. -/
theorem descriptor_heap_handles_witness :
    (([ViewKind.cbv, ViewKind.srv].length ≤ 2 →
        allocViews [ViewKind.cbv, ViewKind.srv] ⟨32, 0, 2⟩
          = some (List.range 2, ⟨32, 2, 2⟩))
      ∧ ([ViewKind.cbv, ViewKind.srv].length = 2 + 1 →
          allocViews [ViewKind.cbv, ViewKind.srv] ⟨32, 0, 2⟩ = none))
    ∧ (([ViewKind.cbv, ViewKind.srv, ViewKind.uav].length ≤ 2 →
        allocViews [ViewKind.cbv, ViewKind.srv, ViewKind.uav] ⟨32, 0, 2⟩
          = some (List.range 3, ⟨32, 3, 2⟩))
      ∧ ([ViewKind.cbv, ViewKind.srv, ViewKind.uav].length = 2 + 1 →
          allocViews [ViewKind.cbv, ViewKind.srv, ViewKind.uav] ⟨32, 0, 2⟩
            = none)) :=
  ⟨descriptor_heap_handles 32 2 [ViewKind.cbv, ViewKind.srv] ⟨32, 0, 2⟩ rfl,
   (descriptor_heap_handles 32 2 [ViewKind.cbv, ViewKind.srv, ViewKind.uav]
      ⟨32, 0, 2⟩ rfl).imp (fun h => h) (fun h => h)⟩

/-! ## Theorems about the raytracing model -/

theorem land_lor_self (x m : Nat) : (x ||| m) &&& m = m := by
  apply Nat.eq_of_testBit_eq
  intro i
  rw [Nat.testBit_land, Nat.testBit_lor]
  cases hx : x.testBit i <;> cases hm : m.testBit i <;> rfl

theorem Tlas.add_instance_eq {t : Tlas} {blas : Blas}
    {tr : Option (Nat → Nat → Int)} {b : Buffer}
    (hb : blas.buffer = some b) (hid : blas.id % 2 ^ 32 ≤ 0xFFFFFF) :
    t.add_instance blas tr = some { t with instances := t.instances ++
      [{ transform := mat4_to_row_marjor_float3x4 (tr.getD mat4_identity)
         accelerationStructure := b.addr
         bitfield1 := (0xFF <<< 24) ||| (blas.id % 2 ^ 32)
         bitfield2 := (0 <<< 24) ||| 0 }] } := by
  unfold Tlas.add_instance
  rw [if_pos (by decide), if_pos (show blas.id % 2 ^ 32 ≤ U24_MAX from hid),
    if_pos (by decide), hb]

theorem Tlas.add_instance_none {t : Tlas} {blas : Blas}
    {tr : Option (Nat → Nat → Int)} (hid : 0xFFFFFF < blas.id % 2 ^ 32) :
    t.add_instance blas tr = none := by
  unfold Tlas.add_instance
  rw [if_pos (by decide),
    if_neg (show ¬ blas.id % 2 ^ 32 ≤ U24_MAX by simp only [U24_MAX]; omega)]

/-- **C9**: `mat4_to_row_marjor_float3x4` is the exact rearrangement that
lays out rows 0, 1 and 2 of the column-major 4x4 input row-major (the first
12 entries of the transpose's column-major array) — entry `(4*i + j)` of
the result is the input's row-`i`, column-`j` entry, with no arithmetic on
the entries (the function is entry-polymorphic) — and `Tlas::add_instance`
stores exactly this encoding of its transform argument (defaulted to the
identity) in the appended instance descriptor. -/
theorem mat4_row_major_rearrangement :
    (∀ (α : Type) (m : Nat → Nat → α),
        mat4_to_row_marjor_float3x4 m
          = [m 0 0, m 1 0, m 2 0, m 3 0,
             m 0 1, m 1 1, m 2 1, m 3 1,
             m 0 2, m 1 2, m 2 2, m 3 2])
      ∧ (∀ (α : Type) (m : Nat → Nat → α) (i j : Nat), i < 3 → j < 4 →
          (mat4_to_row_marjor_float3x4 m).get? (4 * i + j) = some (m j i))
      ∧ (∀ (t t' : Tlas) (blas : Blas) (tr : Option (Nat → Nat → Int)),
          Tlas.add_instance t blas tr = some t' →
          ∃ inst, t'.instances = t.instances ++ [inst]
            ∧ inst.transform
                = mat4_to_row_marjor_float3x4 (tr.getD mat4_identity))
      ∧ mat4_to_row_marjor_float3x4 mat4_identity
          = [1, 0, 0, 0, 0, 1, 0, 0, 0, 0, 1, 0] := by
  refine ⟨fun α m => rfl, fun α m i j hi hj => ?_,
    fun t t' blas tr h => ?_, by decide⟩
  · interval_cases i <;> interval_cases j <;> rfl
  · by_cases hid : blas.id % 2 ^ 32 ≤ 0xFFFFFF
    · cases hbuf : blas.buffer with
      | none =>
        rw [show t.add_instance blas tr = none by
          unfold Tlas.add_instance
          rw [if_pos (by decide),
            if_pos (show blas.id % 2 ^ 32 ≤ U24_MAX from hid),
            if_pos (by decide), hbuf]] at h
        cases h
      | some b =>
        rw [Tlas.add_instance_eq hbuf hid, Option.some_inj] at h
        exact ⟨_, by rw [← h], rfl⟩
    · rw [Tlas.add_instance_none (by omega)] at h
      cases h

/-- Witness for C9 at a concrete matrix, indices, and `add_instance`
call. -/
theorem mat4_row_major_rearrangement_witness :
    ((mat4_to_row_marjor_float3x4 (fun c r => 10 * c + r)).get? (4 * 2 + 3)
        = some (10 * 3 + 2))
      ∧ (∃ inst,
          ({ id := 0, buffer := none, scratch_buffer := none, build_flags := 0
             instances :=
               [{ transform := [1, 0, 0, 0, 0, 1, 0, 0, 0, 0, 1, 0]
                  accelerationStructure := 5
                  bitfield1 := 0xFF000007
                  bitfield2 := 0 }]
             instance_buffer := none } : Tlas).instances
            = ({ id := 0, buffer := none, scratch_buffer := none
                 build_flags := 0, instances := [], instance_buffer := none } :
                  Tlas).instances ++ [inst]
          ∧ inst.transform = mat4_to_row_marjor_float3x4
              ((none : Option (Nat → Nat → Int)).getD mat4_identity)) :=
  ⟨mat4_row_major_rearrangement.2.1 Nat (fun c r => 10 * c + r) 2 3
      (by decide) (by decide),
   mat4_row_major_rearrangement.2.2.1
      ⟨0, none, none, 0, [], none⟩
      ⟨0, none, none, 0,
        [⟨[1, 0, 0, 0, 0, 1, 0, 0, 0, 0, 1, 0], 5, 0xFF000007, 0⟩], none⟩
      ⟨7, some ⟨64, 5⟩, none, 0, []⟩ none (by rfl)⟩

theorem Blas.update_eq {b : Blas} {buf scr : Buffer}
    (hflag : b.build_flags &&& BUILD_FLAG_ALLOW_UPDATE ≠ 0)
    (hbuf : b.buffer = some buf) (hscr : b.scratch_buffer = some scr) :
    b.update = some
      { inputs := { typ := ASType.bottomLevel
                    flags := b.build_flags ||| BUILD_FLAG_PERFORM_UPDATE
                    numDescs := b.geometries.length
                    data := InputsData.geometryDescs b.geometries }
        dest := buf.addr, scratch := scr.addr, source := buf.addr } := by
  simp [Blas.update, Blas.inputs, hbuf, hscr, hflag]

theorem Blas.update_none {b : Blas}
    (hflag : b.build_flags &&& BUILD_FLAG_ALLOW_UPDATE = 0) :
    b.update = none := by
  cases hbuf : b.buffer <;> cases hscr : b.scratch_buffer <;>
    simp [Blas.update, Blas.inputs, hbuf, hscr, hflag]

/-- **C7**: on a Blas whose build flags include the allow-update flag (and
whose buffers were allocated), `Blas::update` records a build whose inputs
carry the perform-update flag and whose source acceleration-structure
address equals its own result buffer's address (in-place refit, same
geometry count), with no assertion failure; on a Blas created without
allow-update, `Blas::update` is a fatal assertion/contract failure. -/
theorem blas_update_is_inplace_refit (b : Blas) :
    (∀ buf scr, b.build_flags &&& BUILD_FLAG_ALLOW_UPDATE ≠ 0 →
        b.buffer = some buf → b.scratch_buffer = some scr →
        b.update = some
          { inputs := { typ := ASType.bottomLevel
                        flags := b.build_flags ||| BUILD_FLAG_PERFORM_UPDATE
                        numDescs := b.geometries.length
                        data := InputsData.geometryDescs b.geometries }
            dest := buf.addr, scratch := scr.addr, source := buf.addr }
          ∧ (b.build_flags ||| BUILD_FLAG_PERFORM_UPDATE)
              &&& BUILD_FLAG_PERFORM_UPDATE ≠ 0)
      ∧ (b.build_flags &&& BUILD_FLAG_ALLOW_UPDATE = 0 → b.update = none) := by
  refine ⟨fun buf scr hflag hbuf hscr => ⟨Blas.update_eq hflag hbuf hscr, ?_⟩,
    fun hflag => Blas.update_none hflag⟩
  rw [land_lor_self]
  decide

/-- Witness for C7: a Blas with the allow-update flag refits in place; one
without it fails the assertion. -/
theorem blas_update_is_inplace_refit_witness :
    ((Blas.mk 0 (some ⟨64, 5⟩) (some ⟨32, 6⟩) BUILD_FLAG_ALLOW_UPDATE
        [⟨0, 3, 3, 9, 10⟩]).update = some
          { inputs := { typ := ASType.bottomLevel
                        flags := BUILD_FLAG_ALLOW_UPDATE
                          ||| BUILD_FLAG_PERFORM_UPDATE
                        numDescs := 1
                        data := InputsData.geometryDescs [⟨0, 3, 3, 9, 10⟩] }
            dest := 5, scratch := 6, source := 5 }
        ∧ (BUILD_FLAG_ALLOW_UPDATE ||| BUILD_FLAG_PERFORM_UPDATE)
            &&& BUILD_FLAG_PERFORM_UPDATE ≠ 0)
      ∧ (Blas.mk 1 (some ⟨64, 5⟩) (some ⟨32, 6⟩) 0 [⟨0, 3, 3, 9, 10⟩]).update
          = none :=
  ⟨(blas_update_is_inplace_refit _).1 ⟨64, 5⟩ ⟨32, 6⟩ (by decide) rfl rfl,
   (blas_update_is_inplace_refit _).2 (by decide)⟩

/-- **C5 (counterexample)**: instance ids are *not* always rejected when
they exceed 0xFFFFFF: `blas.id.v as u32` truncates the `usize` id to 32
bits before the assert, so `add_instance` on a Blas with
`id = 2^32 > 0xFFFFFF` passes the assertion and silently packs instance id
0 instead of rejecting. -/
theorem add_instance_truncates_large_id :
    2 ^ 32 > 0xFFFFFF
      ∧ (((Tlas.mk 0 none none 0 [] none).add_instance
            (Blas.mk (2 ^ 32) (some ⟨64, 5⟩) none 0 []) none).map
          (fun t => t.instances.map (·.bitfield1)))
          = some [0xFF000000] := by
  exact ⟨by decide, rfl⟩

/-- **C5 (amended)**: `add_instance` packs the two 32-bit descriptor fields
as `(mask <<< 24) ||| id32` and `(flags <<< 24) ||| offset` where
`id32 = blas.id % 2^32` (the `usize as u32` truncation) and mask = 0xFF,
flags = 0, offset = 0 are the values this code passes; decoding the packed
fields for id = 0x123456 recovers mask 0xFF, id 0x123456, flags 0,
offset 0; and any id whose 32-bit truncation exceeds 0xFFFFFF — in
particular every id in (0xFFFFFF, 2^32) — is rejected by the assertion
(ids ≥ 2^32 are first truncated mod 2^32 and only the truncated value is
checked). -/
theorem add_instance_packing (t : Tlas) (blas : Blas)
    (tr : Option (Nat → Nat → Int)) :
    (∀ b, blas.buffer = some b → blas.id % 2 ^ 32 ≤ 0xFFFFFF →
        t.add_instance blas tr = some { t with instances := t.instances ++
          [{ transform := mat4_to_row_marjor_float3x4 (tr.getD mat4_identity)
             accelerationStructure := b.addr
             bitfield1 := (0xFF <<< 24) ||| (blas.id % 2 ^ 32)
             bitfield2 := (0 <<< 24) ||| 0 }] })
      ∧ (0xFFFFFF < blas.id % 2 ^ 32 → t.add_instance blas tr = none)
      ∧ (∀ b, blas.buffer = some b → blas.id = 0x123456 →
          ∃ t' inst, t.add_instance blas tr = some t'
            ∧ t'.instances = t.instances ++ [inst]
            ∧ inst.bitfield1 >>> 24 = 0xFF
            ∧ inst.bitfield1 &&& 0xFFFFFF = 0x123456
            ∧ inst.bitfield2 >>> 24 = 0
            ∧ inst.bitfield2 &&& 0xFFFFFF = 0) := by
  refine ⟨fun b hb hid => Tlas.add_instance_eq hb hid,
    fun hid => Tlas.add_instance_none hid, fun b hb hid => ?_⟩
  have hid' : blas.id % 2 ^ 32 ≤ 0xFFFFFF := by rw [hid]; decide
  refine ⟨_, _, Tlas.add_instance_eq hb hid', rfl, ?_, ?_, ?_, ?_⟩
  · rw [hid]
    show ((0xFF <<< 24) ||| (0x123456 % 2 ^ 32)) >>> 24 = 0xFF
    decide
  · rw [hid]
    show ((0xFF <<< 24) ||| (0x123456 % 2 ^ 32)) &&& 0xFFFFFF = 0x123456
    decide
  · show ((0 <<< 24) ||| 0) >>> 24 = 0
    decide
  · show ((0 <<< 24) ||| 0) &&& 0xFFFFFF = 0
    decide

theorem Tlas.alloc_scratch_reuse {t : Tlas} {S : Buffer} (d : Device)
    {n : Nat} (h : t.scratch_buffer = some S) (hw : n ≤ S.width) :
    t.alloc_scratch d n = (S, d) := by
  simp [Tlas.alloc_scratch, h, hw]

theorem Tlas.alloc_scratch_fresh {t : Tlas} (d : Device) {n : Nat}
    (h : t.scratch_buffer = none
      ∨ ∃ S, t.scratch_buffer = some S ∧ S.width < n) :
    t.alloc_scratch d n
      = d.create_buffer n HeapType.default
          RESOURCE_FLAG_ALLOW_UNORDERED_ACCESS := by
  rcases h with h | ⟨S, h, hw⟩
  · simp [Tlas.alloc_scratch, h]
  · simp [Tlas.alloc_scratch, h, show ¬ n ≤ S.width by omega]

theorem Tlas.alloc_result_reuse {t : Tlas} {B : Buffer} (d : Device)
    {n : Nat} (h : t.buffer = some B) (hw : n ≤ B.width) :
    t.alloc_result d n = (B, d) := by
  simp [Tlas.alloc_result, h, hw]

theorem Tlas.alloc_result_fresh {t : Tlas} (d : Device) {n : Nat}
    (h : t.buffer = none ∨ ∃ B, t.buffer = some B ∧ B.width < n) :
    t.alloc_result d n
      = d.create_buffer n HeapType.default
          (RESOURCE_FLAG_RAYTRACING_ACCELERATION_STRUCTURE
            ||| RESOURCE_FLAG_ALLOW_UNORDERED_ACCESS) := by
  rcases h with h | ⟨B, h, hw⟩
  · simp [Tlas.alloc_result, h]
  · simp [Tlas.alloc_result, h, show ¬ n ≤ B.width by omega]

theorem Tlas.allocate_buffers_eq (t : Tlas) (d : Device) :
    t.allocate_buffers d
      = ((t.buffer.map (·.addr)).getD 0
            != (t.alloc_result (t.alloc_scratch d (d.prebuildInfo t.inputs).1).2
                  (d.prebuildInfo t.inputs).2).1.addr,
         { t with
            scratch_buffer :=
              some (t.alloc_scratch d (d.prebuildInfo t.inputs).1).1
            buffer :=
              some (t.alloc_result (t.alloc_scratch d (d.prebuildInfo t.inputs).1).2
                (d.prebuildInfo t.inputs).2).1 },
         (t.alloc_result (t.alloc_scratch d (d.prebuildInfo t.inputs).1).2
            (d.prebuildInfo t.inputs).2).2) := rfl

/-- **C4**: `Tlas::allocate_buffers` reuses the existing scratch (resp.
result) buffer exactly when its current width covers the device-reported
required size, reallocating a fresh buffer of exactly the required size
otherwise; it returns `true` iff the result buffer's GPU address changed
(under the device invariant that live buffer addresses are below the
fresh-address counter); the non-buffer Tlas fields are untouched; and a
second call on the result state (unchanged instance count, hence unchanged
required sizes) performs no reallocation, changes neither the Tlas nor the
device, and returns `false`. -/
theorem tlas_allocate_buffers_growth (d : Device) (t : Tlas)
    (hwf : ∀ buf, t.buffer = some buf → buf.addr < d.nextAddr)
    (hpos : 0 < d.nextAddr) :
    let info := d.prebuildInfo t.inputs
    let r := t.allocate_buffers d
    (∀ buf, t.scratch_buffer = some buf → info.1 ≤ buf.width →
        r.2.1.scratch_buffer = some buf)
      ∧ ((t.scratch_buffer = none
            ∨ ∃ buf, t.scratch_buffer = some buf ∧ buf.width < info.1) →
          ∃ a, r.2.1.scratch_buffer = some ⟨info.1, a⟩
            ∧ r.2.1.scratch_buffer ≠ t.scratch_buffer)
      ∧ (∀ buf, t.buffer = some buf → info.2 ≤ buf.width →
          r.2.1.buffer = some buf ∧ r.1 = false)
      ∧ ((t.buffer = none
            ∨ ∃ buf, t.buffer = some buf ∧ buf.width < info.2) →
          (∃ a, r.2.1.buffer = some ⟨info.2, a⟩ ∧ r.2.1.buffer ≠ t.buffer)
            ∧ r.1 = true)
      ∧ (r.1 = true ↔
          (t.buffer.map (·.addr)).getD 0
            ≠ (r.2.1.buffer.map (·.addr)).getD 0)
      ∧ r.2.1.instances = t.instances
      ∧ r.2.1.instance_buffer = t.instance_buffer
      ∧ r.2.1.build_flags = t.build_flags
      ∧ (r.2.1.allocate_buffers r.2.2).1 = false
      ∧ (r.2.1.allocate_buffers r.2.2).2.1 = r.2.1
      ∧ (r.2.1.allocate_buffers r.2.2).2.2 = r.2.2 := by
  intro info r
  -- the two phase outcomes
  have hscr :
      (∃ S, t.scratch_buffer = some S ∧ info.1 ≤ S.width
          ∧ t.alloc_scratch d info.1 = (S, d))
        ∨ ((t.scratch_buffer = none
              ∨ ∃ S, t.scratch_buffer = some S ∧ S.width < info.1)
            ∧ t.alloc_scratch d info.1
                = (⟨info.1, d.nextAddr⟩,
                   { d with nextAddr := d.nextAddr + 1
                            log := d.log ++ [.createBuffer HeapType.default
                              RESOURCE_FLAG_ALLOW_UNORDERED_ACCESS info.1
                              d.nextAddr] })) := by
    cases hsb : t.scratch_buffer with
    | none => exact Or.inr ⟨Or.inl rfl, Tlas.alloc_scratch_fresh d (Or.inl hsb)⟩
    | some S =>
      by_cases hw : info.1 ≤ S.width
      · exact Or.inl ⟨S, rfl, hw, Tlas.alloc_scratch_reuse d hsb hw⟩
      · exact Or.inr ⟨Or.inr ⟨S, rfl, by omega⟩,
          Tlas.alloc_scratch_fresh d (Or.inr ⟨S, hsb, by omega⟩)⟩
  -- facts about the device state between the two phases
  obtain ⟨d1, hd1, hd1pre, hd1next⟩ :
      ∃ d1, (t.alloc_scratch d info.1).2 = d1
        ∧ d1.prebuildInfo = d.prebuildInfo ∧ d.nextAddr ≤ d1.nextAddr := by
    rcases hscr with ⟨S, _, _, hsr⟩ | ⟨_, hsr⟩
    · rw [hsr]; exact ⟨_, rfl, rfl, Nat.le_refl _⟩
    · rw [hsr]; exact ⟨_, rfl, rfl, Nat.le_succ _⟩
  have hbres :
      (∃ B, t.buffer = some B ∧ info.2 ≤ B.width
          ∧ t.alloc_result d1 info.2 = (B, d1))
        ∨ ((t.buffer = none ∨ ∃ B, t.buffer = some B ∧ B.width < info.2)
            ∧ t.alloc_result d1 info.2
                = (⟨info.2, d1.nextAddr⟩,
                   { d1 with nextAddr := d1.nextAddr + 1
                             log := d1.log ++ [.createBuffer HeapType.default
                               (RESOURCE_FLAG_RAYTRACING_ACCELERATION_STRUCTURE
                                 ||| RESOURCE_FLAG_ALLOW_UNORDERED_ACCESS)
                               info.2 d1.nextAddr] })) := by
    cases hb : t.buffer with
    | none => exact Or.inr ⟨Or.inl rfl, Tlas.alloc_result_fresh d1 (Or.inl hb)⟩
    | some B =>
      by_cases hw : info.2 ≤ B.width
      · exact Or.inl ⟨B, rfl, hw, Tlas.alloc_result_reuse d1 hb hw⟩
      · exact Or.inr ⟨Or.inr ⟨B, rfl, by omega⟩,
          Tlas.alloc_result_fresh d1 (Or.inr ⟨B, hb, by omega⟩)⟩
  -- name the final components
  have hr : r = ((t.buffer.map (·.addr)).getD 0
        != (t.alloc_result d1 info.2).1.addr,
      { t with scratch_buffer := some (t.alloc_scratch d info.1).1
               buffer := some (t.alloc_result d1 info.2).1 },
      (t.alloc_result d1 info.2).2) := by
    rw [show r = t.allocate_buffers d from rfl, Tlas.allocate_buffers_eq, hd1]
  have hrs : r.2.1.scratch_buffer = some (t.alloc_scratch d info.1).1 := by
    rw [hr]
  have hrb : r.2.1.buffer = some (t.alloc_result d1 info.2).1 := by rw [hr]
  have hr1 : r.1 = ((t.buffer.map (·.addr)).getD 0
      != (t.alloc_result d1 info.2).1.addr) := by rw [hr]
  have hrd : r.2.2 = (t.alloc_result d1 info.2).2 := by rw [hr]
  have hSw : info.1 ≤ (t.alloc_scratch d info.1).1.width := by
    rcases hscr with ⟨S, _, hw, hsr⟩ | ⟨_, hsr⟩
    · rw [hsr]; exact hw
    · rw [hsr]
  have hBw : info.2 ≤ (t.alloc_result d1 info.2).1.width := by
    rcases hbres with ⟨B, _, hw, hbr⟩ | ⟨_, hbr⟩
    · rw [hbr]; exact hw
    · rw [hbr]
  have hd2pre : (t.alloc_result d1 info.2).2.prebuildInfo = d.prebuildInfo := by
    rcases hbres with ⟨B, _, _, hbr⟩ | ⟨_, hbr⟩ <;> rw [hbr] <;> exact hd1pre
  have hinputs : r.2.1.inputs = t.inputs := by rw [hr]; rfl
  have hnew_ne_prev :
      (t.buffer = none ∨ ∃ B, t.buffer = some B ∧ B.width < info.2) →
      (t.buffer.map (·.addr)).getD 0 ≠ (t.alloc_result d1 info.2).1.addr := by
    intro h
    rw [Tlas.alloc_result_fresh d1 h]
    rcases h with h | ⟨B, h, _⟩
    · rw [h]
      show (0 : Nat) ≠ d1.nextAddr
      omega
    · rw [h]
      show B.addr ≠ d1.nextAddr
      have := hwf B h
      omega
  have hpre2 : r.2.2.prebuildInfo r.2.1.inputs = info := by
    rw [hrd, hd2pre, hinputs]
  have hscr2 : r.2.1.alloc_scratch r.2.2 (r.2.2.prebuildInfo r.2.1.inputs).1
      = ((t.alloc_scratch d info.1).1, r.2.2) := by
    rw [hpre2]
    exact Tlas.alloc_scratch_reuse r.2.2 hrs hSw
  have hres2 : r.2.1.alloc_result r.2.2 (r.2.2.prebuildInfo r.2.1.inputs).2
      = ((t.alloc_result d1 info.2).1, r.2.2) := by
    rw [hpre2]
    exact Tlas.alloc_result_reuse r.2.2 hrb hBw
  have hsec : r.2.1.allocate_buffers r.2.2 = (false, r.2.1, r.2.2) := by
    have e1 : (r.2.1.buffer.map (·.addr)).getD 0
        = (t.alloc_result d1 info.2).1.addr := by rw [hrb]; rfl
    rw [Tlas.allocate_buffers_eq]
    simp only [hscr2, hres2, e1, bne_self_eq_false]
    rw [hr]
  refine ⟨?_, ?_, ?_, ?_, ?_, by rw [hr], by rw [hr], by rw [hr],
    by rw [hsec], by rw [hsec], by rw [hsec]⟩
  · intro buf hb hw
    rw [hrs, Tlas.alloc_scratch_reuse d hb hw]
  · intro h
    rw [hrs, Tlas.alloc_scratch_fresh d h]
    refine ⟨d.nextAddr, rfl, ?_⟩
    rcases h with h | ⟨S, h, hw⟩
    · rw [h]; simp
    · rw [h]
      intro hcon
      rw [Option.some_inj] at hcon
      have : info.1 = S.width := congrArg Buffer.width hcon
      omega
  · intro buf hb hw
    have he := Tlas.alloc_result_reuse d1 hb hw
    constructor
    · rw [hrb, he]
    · rw [hr1, he, hb]
      simp
  · intro h
    have he := Tlas.alloc_result_fresh d1 h
    refine ⟨⟨d1.nextAddr, ?_, ?_⟩, ?_⟩
    · rw [hrb, he]
      rfl
    · rw [hrb, he]
      rcases h with h | ⟨B, h, hw⟩
      · rw [h]; simp
      · rw [h]
        intro hcon
        rw [Option.some_inj] at hcon
        have : info.2 = B.width := congrArg Buffer.width hcon
        omega
    · rw [hr1, bne_iff_ne]
      exact hnew_ne_prev h
  · rw [hr1, hrb, bne_iff_ne]
    simp

/-- Witness for C4 at a concrete device and freshly created Tlas (no
buffers yet). -/
theorem tlas_allocate_buffers_growth_witness :
    let d : Device :=
      { nextAddr := 1, view_heap := ⟨32, 0, 4⟩,
        prebuildInfo := fun _ => (16, 64), log := [] }
    let t : Tlas := ⟨0, none, none, 0, [], none⟩
    let info := d.prebuildInfo t.inputs
    let r := t.allocate_buffers d
    (∀ buf, t.scratch_buffer = some buf → info.1 ≤ buf.width →
        r.2.1.scratch_buffer = some buf)
      ∧ ((t.scratch_buffer = none
            ∨ ∃ buf, t.scratch_buffer = some buf ∧ buf.width < info.1) →
          ∃ a, r.2.1.scratch_buffer = some ⟨info.1, a⟩
            ∧ r.2.1.scratch_buffer ≠ t.scratch_buffer)
      ∧ (∀ buf, t.buffer = some buf → info.2 ≤ buf.width →
          r.2.1.buffer = some buf ∧ r.1 = false)
      ∧ ((t.buffer = none
            ∨ ∃ buf, t.buffer = some buf ∧ buf.width < info.2) →
          (∃ a, r.2.1.buffer = some ⟨info.2, a⟩ ∧ r.2.1.buffer ≠ t.buffer)
            ∧ r.1 = true)
      ∧ (r.1 = true ↔
          (t.buffer.map (·.addr)).getD 0
            ≠ (r.2.1.buffer.map (·.addr)).getD 0)
      ∧ r.2.1.instances = t.instances
      ∧ r.2.1.instance_buffer = t.instance_buffer
      ∧ r.2.1.build_flags = t.build_flags
      ∧ (r.2.1.allocate_buffers r.2.2).1 = false
      ∧ (r.2.1.allocate_buffers r.2.2).2.1 = r.2.1
      ∧ (r.2.1.allocate_buffers r.2.2).2.2 = r.2.2 :=
  tlas_allocate_buffers_growth
    { nextAddr := 1, view_heap := ⟨32, 0, 4⟩,
      prebuildInfo := fun _ => (16, 64), log := [] }
    ⟨0, none, none, 0, [], none⟩
    (fun buf h => by cases h) (by decide)

theorem blasUpdates_refits {l : List Blas}
    (h : ∀ b ∈ l, b.build_flags &&& BUILD_FLAG_ALLOW_UPDATE ≠ 0
        ∧ b.buffer.isSome ∧ b.scratch_buffer.isSome) :
    ∃ descs, blasUpdates l = some descs
      ∧ List.Forall₂ (fun b dsc =>
          Blas.update b = some dsc
            ∧ dsc.source = dsc.dest
            ∧ (∀ buf, b.buffer = some buf → dsc.dest = buf.addr)
            ∧ dsc.inputs.flags &&& BUILD_FLAG_PERFORM_UPDATE ≠ 0
            ∧ dsc.inputs.numDescs = b.geometries.length) l descs := by
  induction l with
  | nil => exact ⟨[], rfl, List.Forall₂.nil⟩
  | cons b l ih =>
    obtain ⟨hflag, hbufS, hscrS⟩ := h b (List.mem_cons_self b l)
    obtain ⟨buf, hbuf⟩ := Option.isSome_iff_exists.mp hbufS
    obtain ⟨scr, hscr⟩ := Option.isSome_iff_exists.mp hscrS
    obtain ⟨descs, hd, hf⟩ := ih (fun x hx => h x (List.mem_cons_of_mem _ hx))
    have hupd := Blas.update_eq hflag hbuf hscr
    refine ⟨_ :: descs, ?_, List.Forall₂.cons ⟨hupd, rfl, ?_, ?_, rfl⟩ hf⟩
    · simp [blasUpdates, hupd, hd]
    · intro buf' hb'
      rw [hbuf, Option.some_inj] at hb'
      rw [hb']
    · show (b.build_flags ||| BUILD_FLAG_PERFORM_UPDATE)
          &&& BUILD_FLAG_PERFORM_UPDATE ≠ 0
      rw [land_lor_self]
      decide

theorem Tlas.build_eq {t : Tlas} {scr buf : Buffer}
    (hib : t.instance_buffer.isSome)
    (hscr : t.scratch_buffer = some scr) (hbuf : t.buffer = some buf) :
    t.build = some { inputs := t.inputs, dest := buf.addr,
                     scratch := scr.addr, source := 0 } := by
  simp [Tlas.build, hib, hscr, hbuf]

theorem Tlas.allocate_buffers_view_heap (t : Tlas) (d : Device) :
    (t.allocate_buffers d).2.2.view_heap = d.view_heap := by
  cases hs : t.scratch_buffer <;> cases hb : t.buffer <;>
    simp only [Tlas.allocate_buffers_eq, Tlas.alloc_scratch, Tlas.alloc_result,
      Device.create_buffer, hs, hb] <;>
    (repeat' split) <;> rfl

theorem Device.create_srv_eq {d : Device}
    (h : d.view_heap.view_count < d.view_heap.capacity) (loc : Nat) :
    d.create_srv loc = some (d.view_heap.view_count,
      { d with
          view_heap :=
            { d.view_heap with view_count := d.view_heap.view_count + 1 }
          log := d.log ++ [.createSrv loc d.view_heap.view_count] }) := by
  simp [Device.create_srv, DesciptorHeap.create_srv, h]

/-- **C3 (amended)**: `RaytracingScene::update` performs, in order: (1) an
incremental Update refit of every Blas (each in-place, with the
perform-update flag) followed by one batched unordered-access barrier on
their result buffers; (2) reallocation of the Tlas scratch/result buffers
if required; (3) a full (non-update, source = 0) Tlas build whose instance
data is the *pre-existing* instance upload buffer — the instance upload
buffer is NOT rebuilt by `update` (it is created once at scene build;
per-frame motion reaches the structure through the Blas refit's geometry
transform buffer); (4) recreation of the Tlas shader-resource view if and
only if the result buffer was reallocated; (5) a final unordered-access
barrier on the Tlas result buffer. -/
theorem scene_update_protocol (s : RaytracingScene) (d : Device)
    (hb : ∀ b ∈ s.blas_list, b.build_flags &&& BUILD_FLAG_ALLOW_UPDATE ≠ 0
        ∧ b.buffer.isSome ∧ b.scratch_buffer.isSome)
    (hib : s.tlas.instance_buffer.isSome)
    (hheap : d.view_heap.view_count < d.view_heap.capacity) :
    let a := s.tlas.allocate_buffers d
    ∃ descs td s' d',
      blasUpdates s.blas_list = some descs
        ∧ List.Forall₂ (fun b dsc =>
            Blas.update b = some dsc
              ∧ dsc.source = dsc.dest
              ∧ (∀ buf, b.buffer = some buf → dsc.dest = buf.addr)
              ∧ dsc.inputs.flags &&& BUILD_FLAG_PERFORM_UPDATE ≠ 0
              ∧ dsc.inputs.numDescs = b.geometries.length) s.blas_list descs
        ∧ a.2.1.build = some td
        ∧ td.source = 0
        ∧ td.inputs.flags = s.tlas.build_flags
        ∧ td.inputs.numDescs = s.tlas.instances.length
        ∧ a.2.1.instance_buffer = s.tlas.instance_buffer
        ∧ td.inputs.data = InputsData.instanceDescs
            ((s.tlas.instance_buffer.map (·.addr)).getD 0)
        ∧ s.update d = some (s', d',
            descs.map Action.buildAS
              ++ [Action.resourceBarrier
                    (descs.map fun dsc => Barrier.uav dsc.dest)]
              ++ [Action.buildAS td]
              ++ [Action.resourceBarrier [Barrier.uav td.dest]])
        ∧ s'.blas_list = s.blas_list
        ∧ s'.tlas = a.2.1
        ∧ (a.1 = true →
            s'.srv = some a.2.2.view_heap.view_count
              ∧ d'.log = a.2.2.log
                  ++ [DevCall.createSrv td.dest a.2.2.view_heap.view_count])
        ∧ (a.1 = false → s'.srv = s.srv ∧ d' = a.2.2) := by
  intro a
  obtain ⟨descs, hmapm, hforall⟩ := blasUpdates_refits hb
  have hins : a.2.1.instance_buffer = s.tlas.instance_buffer := rfl
  have hib1 : a.2.1.instance_buffer.isSome := by rw [hins]; exact hib
  have htd := Tlas.build_eq hib1
    (show a.2.1.scratch_buffer = some _ from rfl)
    (show a.2.1.buffer = some _ from rfl)
  have hvh : a.2.2.view_heap = d.view_heap :=
    Tlas.allocate_buffers_view_heap s.tlas d
  have hheap2 : a.2.2.view_heap.view_count < a.2.2.view_heap.capacity := by
    rw [hvh]; exact hheap
  have haa : s.tlas.allocate_buffers d = a := rfl
  cases ha : a.1 with
  | false =>
    refine ⟨descs, _, { s with tlas := a.2.1 }, a.2.2,
      hmapm, hforall, htd, rfl, rfl, rfl, hins, rfl, ?_, rfl, rfl, ?_, ?_⟩
    · simp only [RaytracingScene.update, Option.bind_eq_bind, hmapm,
        Option.some_bind, haa, htd, ha, Bool.false_eq_true, if_false]
    · intro h
      simp at h
    · intro h
      exact ⟨rfl, rfl⟩
  | true =>
    refine ⟨descs, _,
      { s with tlas := a.2.1, srv := some a.2.2.view_heap.view_count },
      { a.2.2 with
          view_heap :=
            { a.2.2.view_heap with
                view_count := a.2.2.view_heap.view_count + 1 }
          log := a.2.2.log ++ [DevCall.createSrv
            (s.tlas.alloc_result
              (s.tlas.alloc_scratch d (d.prebuildInfo s.tlas.inputs).1).2
              (d.prebuildInfo s.tlas.inputs).2).1.addr
            a.2.2.view_heap.view_count] },
      hmapm, hforall, htd, rfl, rfl, rfl, hins, rfl, ?_, rfl, rfl, ?_, ?_⟩
    · simp only [RaytracingScene.update, Option.bind_eq_bind, hmapm,
        Option.some_bind, haa, htd, ha, if_true,
        RaytracingScene.init_srv, Device.create_srv_eq hheap2]
      rfl
    · intro h
      exact ⟨rfl, rfl⟩
    · intro h
      simp at h

/-- **C3 (counterexample)**: the claim's step (3) — "rebuild of the
instance upload buffer from the current per-instance transforms" — does not
happen: on a built one-Blas scene whose Tlas buffers already cover the
required sizes, `update` succeeds while making *no* device creation call at
all (the device log stays empty, so no upload buffer is created) and leaves
`instance_buffer` the very buffer object created at scene-build time. -/
theorem scene_update_keeps_instance_buffer :
    ((RaytracingScene.update
        { blas_list := [{ id := 0, buffer := some ⟨64, 10⟩,
                          scratch_buffer := some ⟨16, 11⟩,
                          build_flags := BUILD_FLAG_ALLOW_UPDATE,
                          geometries := [⟨0, 3, 3, 9, 10⟩] }]
          tlas := { id := 0, buffer := some ⟨64, 20⟩,
                    scratch_buffer := some ⟨16, 21⟩, build_flags := 0,
                    instances := [⟨[1, 0, 0, 0, 0, 1, 0, 0, 0, 0, 1, 0],
                      10, 0xFF000000, 0⟩],
                    instance_buffer := some ⟨64, 30⟩ }
          srv := some 2 }
        { nextAddr := 100, view_heap := ⟨32, 3, 4⟩,
          prebuildInfo := fun _ => (16, 64), log := [] }).map
        (fun r => (r.1.tlas.instance_buffer, r.2.1.log, r.1.srv)))
      = some (some ⟨64, 30⟩, ([] : List DevCall), some 2) := rfl

/-- Witness for the amended C3 at the same concrete scene and device. -/
theorem scene_update_protocol_witness :
    let d : Device :=
      { nextAddr := 100, view_heap := ⟨32, 3, 4⟩,
        prebuildInfo := fun _ => (16, 64), log := [] }
    let s : RaytracingScene :=
      { blas_list := [{ id := 0, buffer := some ⟨64, 10⟩,
                        scratch_buffer := some ⟨16, 11⟩,
                        build_flags := BUILD_FLAG_ALLOW_UPDATE,
                        geometries := [⟨0, 3, 3, 9, 10⟩] }]
        tlas := { id := 0, buffer := some ⟨64, 20⟩,
                  scratch_buffer := some ⟨16, 21⟩, build_flags := 0,
                  instances := [⟨[1, 0, 0, 0, 0, 1, 0, 0, 0, 0, 1, 0],
                    10, 0xFF000000, 0⟩],
                  instance_buffer := some ⟨64, 30⟩ }
        srv := some 2 }
    let a := s.tlas.allocate_buffers d
    ∃ descs td s' d',
      blasUpdates s.blas_list = some descs
        ∧ List.Forall₂ (fun b dsc =>
            Blas.update b = some dsc
              ∧ dsc.source = dsc.dest
              ∧ (∀ buf, b.buffer = some buf → dsc.dest = buf.addr)
              ∧ dsc.inputs.flags &&& BUILD_FLAG_PERFORM_UPDATE ≠ 0
              ∧ dsc.inputs.numDescs = b.geometries.length) s.blas_list descs
        ∧ a.2.1.build = some td
        ∧ td.source = 0
        ∧ td.inputs.flags = s.tlas.build_flags
        ∧ td.inputs.numDescs = s.tlas.instances.length
        ∧ a.2.1.instance_buffer = s.tlas.instance_buffer
        ∧ td.inputs.data = InputsData.instanceDescs
            ((s.tlas.instance_buffer.map (·.addr)).getD 0)
        ∧ s.update d = some (s', d',
            descs.map Action.buildAS
              ++ [Action.resourceBarrier
                    (descs.map fun dsc => Barrier.uav dsc.dest)]
              ++ [Action.buildAS td]
              ++ [Action.resourceBarrier [Barrier.uav td.dest]])
        ∧ s'.blas_list = s.blas_list
        ∧ s'.tlas = a.2.1
        ∧ (a.1 = true →
            s'.srv = some a.2.2.view_heap.view_count
              ∧ d'.log = a.2.2.log
                  ++ [DevCall.createSrv td.dest a.2.2.view_heap.view_count])
        ∧ (a.1 = false → s'.srv = s.srv ∧ d' = a.2.2) :=
  scene_update_protocol
    { blas_list := [{ id := 0, buffer := some ⟨64, 10⟩,
                      scratch_buffer := some ⟨16, 11⟩,
                      build_flags := BUILD_FLAG_ALLOW_UPDATE,
                      geometries := [⟨0, 3, 3, 9, 10⟩] }]
      tlas := { id := 0, buffer := some ⟨64, 20⟩,
                scratch_buffer := some ⟨16, 21⟩, build_flags := 0,
                instances := [⟨[1, 0, 0, 0, 0, 1, 0, 0, 0, 0, 1, 0],
                  10, 0xFF000000, 0⟩],
                instance_buffer := some ⟨64, 30⟩ }
      srv := some 2 }
    { nextAddr := 100, view_heap := ⟨32, 3, 4⟩,
      prebuildInfo := fun _ => (16, 64), log := [] }
    (by decide) (by decide) (by decide)

/-- Witness for the amended C5 at concrete inputs (packing at id 0x123456
and rejection at id 0x1000000). -/
theorem add_instance_packing_witness :
    ((Tlas.mk 0 none none 0 [] none).add_instance
        (Blas.mk 0x123456 (some ⟨64, 5⟩) none 0 []) none
        = some { (Tlas.mk 0 none none 0 [] none : Tlas) with
            instances := [] ++
              [{ transform := mat4_to_row_marjor_float3x4
                   ((none : Option (Nat → Nat → Int)).getD mat4_identity)
                 accelerationStructure := (5 : Nat)
                 bitfield1 := (0xFF <<< 24) ||| (0x123456 % 2 ^ 32)
                 bitfield2 := (0 <<< 24) ||| 0 }] })
      ∧ (Tlas.mk 0 none none 0 [] none).add_instance
          (Blas.mk 0x1000000 (some ⟨64, 5⟩) none 0 []) none = none :=
  ⟨(add_instance_packing (Tlas.mk 0 none none 0 [] none)
      (Blas.mk 0x123456 (some ⟨64, 5⟩) none 0 []) none).1
      ⟨64, 5⟩ rfl (by decide),
   (add_instance_packing (Tlas.mk 0 none none 0 [] none)
      (Blas.mk 0x1000000 (some ⟨64, 5⟩) none 0 []) none).2.1
      (by decide)⟩

end D3D12Sandbox

